import Mathlib

/-!
Shallow embedding of the OAuth session/state machine and the file-backed
credential/token stores of `fitbit_auth_gui.py`.

Python dictionaries (`_active_sessions`, `_state_to_client`, the token
document) are modelled as insertion-ordered association lists with
first-match lookup and replace-first-or-append insertion, which is exactly
the observable behaviour of a Python `dict` (whose key sets are always
duplicate-free).  JSON files on disk are modelled as
`Option (Option α)`: `none` is a missing file, `some none` a file whose
contents do not parse (`json.JSONDecodeError`), `some (some v)` a file
parsing to the document `v`; `json.dumps`/`json.load` round-tripping is
assumed faithful.  The non-deterministic inputs of the HTTP handlers — the
fresh OAuth `state` produced by `authorization_url` and the outcome of the
outbound `fetch_token` call — are passed as explicit parameters.
-/

namespace FitbitAuth

/-- First-match lookup in an association list; models Python `dict.get`. -/
def dictGet {α : Type} : List (String × α) → String → Option α
  | [], _ => none
  | p :: rest, k => if p.1 = k then some p.2 else dictGet rest k

/-- Replace the first binding of `k` (or append one); models Python
`d[k] = v`. -/
def dictSet {α : Type} : List (String × α) → String → α → List (String × α)
  | [], k, v => [(k, v)]
  | p :: rest, k, v => if p.1 = k then (k, v) :: rest else p :: dictSet rest k v

/-- Remove every binding of `k`; on duplicate-free key sets this is the
effect of Python `d.pop(k, None)` on the dictionary. -/
def dictRemove {α : Type} : List (String × α) → String → List (String × α)
  | [], _ => []
  | p :: rest, k => if p.1 = k then dictRemove rest k else p :: dictRemove rest k

/-- Python `str.strip()`: remove leading and trailing whitespace.  (Defined
by structural recursion over the character list so that concrete instances
evaluate; `String.trim` computes the same string.) -/
def pyStrip (s : String) : String :=
  ⟨((s.data.dropWhile Char.isWhitespace).reverse.dropWhile Char.isWhitespace).reverse⟩

/-- The value stored in `_active_sessions` for one client: the secret given
at registration, and the OAuth state once `/auth` has assigned one
(`none` models the freshly created session dict having no state key). -/
structure SessionInfo where
  secret : String
  state : Option String
deriving Repr, DecidableEq

/-- The in-memory session registry: the pair of module-level dictionaries
`_active_sessions` and `_state_to_client`. -/
structure RegState where
  active_sessions : List (String × SessionInfo)
  state_to_client : List (String × String)
deriving Repr, DecidableEq

/-- The registry at process start: both dictionaries empty. -/
def initRegState : RegState := ⟨[], []⟩

/-- `register_session(client_id, client_secret)`: store a fresh session for
`client_id` (with no state yet) and drop every `_state_to_client` entry
whose value is `client_id`. -/
def register_session (σ : RegState) (client_id client_secret : String) : RegState :=
  { active_sessions := dictSet σ.active_sessions client_id ⟨client_secret, none⟩,
    state_to_client := σ.state_to_client.filter (fun p => p.2 ≠ client_id) }

/-- Opaque token payload as returned by the token endpoint. -/
abbrev Token := String

/-- A JSON file on disk: missing, unparseable, or parsing to a document. -/
abbrev JsonFile (α : Type) := Option (Option α)

/-- `ensure_json_file(path, default)`: on a missing or unparseable file,
write the default document and return it; otherwise return the parsed
document.  Never raises to the caller. -/
def ensure_json_file {α : Type} (file : JsonFile α) (default : α) : α × JsonFile α :=
  match file with
  | none => (default, some (some default))
  | some none => (default, some (some default))
  | some (some v) => (v, file)

/-- One record of `credentials.json`. -/
structure Cred where
  client_id : String
  client_secret : String
deriving Repr, DecidableEq

/-- The `for ... else` loop of `save_credentials`: overwrite the secret of
the first record whose `client_id` matches, else append a new record. -/
def upsertCredential : List Cred → String → String → List Cred
  | [], cid, sec => [⟨cid, sec⟩]
  | c :: rest, cid, sec =>
      if c.client_id = cid then ⟨cid, sec⟩ :: rest
      else c :: upsertCredential rest cid sec

/-- `save_credentials(client_id, client_secret)`: load (self-healing) the
credential document, upsert, write back. -/
def save_credentials (file : JsonFile (List Cred)) (client_id client_secret : String) :
    JsonFile (List Cred) :=
  let data := (ensure_json_file file []).1
  some (some (upsertCredential data client_id client_secret))

/-- The `fitbit_tokens.json` document: a mapping from client id to token. -/
abbrev TokensDoc := List (String × Token)

/-- `load_tokens()`: self-healing load of the token document (returns the
document and the possibly rewritten file). -/
def load_tokens (file : JsonFile TokensDoc) : TokensDoc × JsonFile TokensDoc :=
  ensure_json_file file []

/-- `save_token(client_id, token)`: load (self-healing), set the entry for
`client_id`, write back. -/
def save_token (file : JsonFile TokensDoc) (client_id : String) (token : Token) :
    JsonFile TokensDoc :=
  let tokens := (ensure_json_file file []).1
  some (some (dictSet tokens client_id token))

/-- Response kind of `GET /auth`. -/
inductive AuthResp where
  | missingClientId
  | unknownClient
  | started
deriving Repr, DecidableEq

/-- HTTP status code of each `/auth` response. -/
def AuthResp.status : AuthResp → Nat
  | .missingClientId => 400
  | .unknownClient => 400
  | .started => 200

/-- Result of one `GET /auth` request: the JSON response kind, whether
`webbrowser.open` ran, and the registry afterwards. -/
structure AuthResult where
  resp : AuthResp
  browserOpened : Bool
  regState : RegState
deriving Repr, DecidableEq

/-- `auth_route`: read `client_id` from the query string (default `""`,
then `.strip()`); reject blank or unregistered ids with 400 and no side
effect; otherwise record the fresh `state` on the session and in
`_state_to_client`, and open the browser.  `freshState` is the state
value generated by `OAuth2Session.authorization_url`. -/
def auth_route (σ : RegState) (client_id_param : Option String) (freshState : String) :
    AuthResult :=
  let client_id := pyStrip (client_id_param.getD "")
  if client_id = "" then ⟨.missingClientId, false, σ⟩
  else
    match dictGet σ.active_sessions client_id with
    | none => ⟨.unknownClient, false, σ⟩
    | some info =>
        ⟨.started, true,
          { active_sessions :=
              dictSet σ.active_sessions client_id { info with state := some freshState },
            state_to_client := dictSet σ.state_to_client freshState client_id }⟩

/-- Response kind of `GET /callback`. -/
inductive CallbackResp where
  | providerError
  | missingState
  | sessionNotFound
  | exchangeFailed
  | success
deriving Repr, DecidableEq

/-- HTTP status code of each `/callback` response. -/
def CallbackResp.status : CallbackResp → Nat
  | .providerError => 400
  | .missingState => 400
  | .sessionNotFound => 400
  | .exchangeFailed => 500
  | .success => 200

/-- Result of one `GET /callback` request: the page kind, the
`(client_id, client_secret)` pair the state resolved to (if resolution
reached the exchange), whether the token endpoint was called, the registry
afterwards, and the token file afterwards. -/
structure CallbackResult where
  resp : CallbackResp
  resolved : Option (String × String)
  exchangeCalled : Bool
  regState : RegState
  tokensFile : JsonFile TokensDoc
deriving Repr, DecidableEq

/-- The state-resolution step of `callback_route` (lines 210–214):
`client_id = _state_to_client.pop(state, None)`, then
`session_info = _active_sessions.get(client_id) if client_id else None`;
resolution succeeds when both yield a truthy value. -/
def resolveState (σ : RegState) (state : String) : Option (String × SessionInfo) :=
  match dictGet σ.state_to_client state with
  | none => none
  | some client_id =>
      if client_id = "" then none
      else (dictGet σ.active_sessions client_id).map (fun info => (client_id, info))

/-- `callback_route`: the `error` query parameter short-circuits to a 400
page; a missing or empty `state` gives a 400 page; then the state is popped
from `_state_to_client` and resolved; an unresolved state gives the
"session not found" 400 page; otherwise `fetch_token` runs (its outcome is
the `exchange` parameter, `none` modelling a raised exception): failure
gives a 500 page, success persists the token via `save_token`, pops the
session, and gives the 200 page. -/
def callback_route (σ : RegState) (tokens : JsonFile TokensDoc)
    (error_param state_param : Option String) (exchange : Option Token) : CallbackResult :=
  if error_param.isSome then ⟨.providerError, none, false, σ, tokens⟩
  else
    let state := state_param.getD ""
    if state = "" then ⟨.missingState, none, false, σ, tokens⟩
    else
      let σ' : RegState := { σ with state_to_client := dictRemove σ.state_to_client state }
      match resolveState σ state with
      | none => ⟨.sessionNotFound, none, false, σ', tokens⟩
      | some (client_id, info) =>
          match exchange with
          | none => ⟨.exchangeFailed, some (client_id, info.secret), true, σ', tokens⟩
          | some tok =>
              ⟨.success, some (client_id, info.secret), true,
                { σ' with active_sessions := dictRemove σ'.active_sessions client_id },
                save_token tokens client_id tok⟩

/-- One public operation on the session registry, as named by the StateIndex
invariant of the spec: registration, `/auth` state assignment, `/callback`
state resolution. -/
inductive Op where
  | register (client_id client_secret : String)
  | auth (client_id_param : Option String) (freshState : String)
  | callback (error_param state_param : Option String) (exchange : Option Token)
deriving Repr, DecidableEq

/-- Effect of one operation on the registry (the token file is irrelevant
to how the registry evolves). -/
def stepOp (σ : RegState) : Op → RegState
  | .register cid sec => register_session σ cid sec
  | .auth p st => (auth_route σ p st).regState
  | .callback e s x => (callback_route σ none e s x).regState

/-- Run a sequence of public operations from a registry state. -/
def execOps (σ : RegState) (ops : List Op) : RegState :=
  ops.foldl stepOp σ

/-- The StateIndex invariant of the spec: every key of `_state_to_client` maps
to a client id whose live session records exactly that state. -/
def StateIndexConsistent (σ : RegState) : Prop :=
  ∀ st cid, dictGet σ.state_to_client st = some cid →
    ∃ info, dictGet σ.active_sessions cid = some info ∧ info.state = some st

/-! ### Association-list lemmas -/

theorem dictGet_dictSet_self {α : Type} (d : List (String × α)) (k : String) (v : α) :
    dictGet (dictSet d k v) k = some v := by
  induction d with
  | nil => simp [dictSet, dictGet]
  | cons p rest ih =>
      by_cases h : p.1 = k
      · simp [dictSet, dictGet, h]
      · simp [dictSet, dictGet, h, ih]

theorem dictGet_dictSet_ne {α : Type} (d : List (String × α)) {k k' : String} (v : α)
    (h : k' ≠ k) : dictGet (dictSet d k v) k' = dictGet d k' := by
  induction d with
  | nil => simp [dictSet, dictGet, Ne.symm h]
  | cons p rest ih =>
      obtain ⟨a, b⟩ := p
      by_cases hp : a = k
      · have hak' : ¬ a = k' := fun hh => h (hh.symm.trans hp)
        simp [dictSet, dictGet, hp, hak', Ne.symm h]
      · by_cases hp' : a = k'
        · simp [dictSet, dictGet, hp, hp', h]
        · simp [dictSet, dictGet, hp, hp', ih]

theorem mem_dictSet {α : Type} {d : List (String × α)} {k : String} {v : α}
    {x : String × α} (h : x ∈ dictSet d k v) : x = (k, v) ∨ x ∈ d := by
  induction d with
  | nil => simpa [dictSet] using h
  | cons p rest ih =>
      by_cases hp : p.1 = k
      · simp only [dictSet, hp, if_pos rfl] at h
        rcases List.mem_cons.mp h with h | h
        · exact Or.inl h
        · exact Or.inr (List.mem_cons_of_mem _ h)
      · simp only [dictSet, hp, if_neg hp] at h
        rcases List.mem_cons.mp h with h | h
        · exact Or.inr (h ▸ List.mem_cons_self _ _)
        · rcases ih h with h | h
          · exact Or.inl h
          · exact Or.inr (List.mem_cons_of_mem _ h)

theorem dictGet_mem {α : Type} {d : List (String × α)} {k : String} {v : α}
    (h : dictGet d k = some v) : (k, v) ∈ d := by
  induction d with
  | nil => simp [dictGet] at h
  | cons p rest ih =>
      obtain ⟨a, b⟩ := p
      by_cases hp : a = k
      · subst hp
        simp [dictGet] at h
        subst h
        exact List.mem_cons_self _ _
      · simp [dictGet, hp] at h
        exact List.mem_cons_of_mem _ (ih h)

theorem dictGet_eq_none_of_not_mem_keys {α : Type} {d : List (String × α)} {k : String}
    (h : k ∉ d.map Prod.fst) : dictGet d k = none := by
  induction d with
  | nil => rfl
  | cons p rest ih =>
      simp only [List.map_cons, List.mem_cons] at h
      push_neg at h
      have hp : ¬ p.1 = k := fun hp => h.1 hp.symm
      simp [dictGet, hp, ih h.2]

theorem dictGet_dictRemove_self {α : Type} (d : List (String × α)) (k : String) :
    dictGet (dictRemove d k) k = none := by
  induction d with
  | nil => rfl
  | cons p rest ih =>
      obtain ⟨a, b⟩ := p
      by_cases hp : a = k
      · simpa [dictRemove, hp] using ih
      · simpa [dictRemove, dictGet, hp] using ih

theorem dictGet_dictRemove_ne {α : Type} (d : List (String × α)) {k c : String}
    (h : k ≠ c) : dictGet (dictRemove d c) k = dictGet d k := by
  induction d with
  | nil => rfl
  | cons p rest ih =>
      obtain ⟨a, b⟩ := p
      by_cases hp : a = c
      · simpa [dictRemove, dictGet, hp, Ne.symm h] using ih
      · by_cases hak : a = k
        · simp [dictRemove, dictGet, hp, hak, h]
        · simpa [dictRemove, dictGet, hp, hak] using ih

theorem mem_dictRemove {α : Type} {d : List (String × α)} {k : String}
    {x : String × α} (h : x ∈ dictRemove d k) : x ∈ d ∧ x.1 ≠ k := by
  induction d with
  | nil => simp [dictRemove] at h
  | cons p rest ih =>
      by_cases hp : p.1 = k
      · simp only [dictRemove, if_pos hp] at h
        exact ⟨List.mem_cons_of_mem _ (ih h).1, (ih h).2⟩
      · simp only [dictRemove, if_neg hp] at h
        rcases List.mem_cons.mp h with h | h
        · exact ⟨h ▸ List.mem_cons_self _ _, h ▸ hp⟩
        · exact ⟨List.mem_cons_of_mem _ (ih h).1, (ih h).2⟩

theorem keys_filter_subset {α : Type} {d : List (String × α)} {P : String × α → Bool}
    {k : String} (h : k ∈ (d.filter P).map Prod.fst) : k ∈ d.map Prod.fst := by
  obtain ⟨p, hp, hk⟩ := List.mem_map.mp h
  exact List.mem_map.mpr ⟨p, (List.mem_filter.mp hp).1, hk⟩

theorem nodupKeys_filter {α : Type} {d : List (String × α)} (P : String × α → Bool)
    (h : (d.map Prod.fst).Nodup) : ((d.filter P).map Prod.fst).Nodup :=
  List.Nodup.sublist (List.Sublist.map Prod.fst (List.filter_sublist d)) h

theorem dictGet_dictSet_filter_value {α : Type} [DecidableEq α]
    {d : List (String × α)} (h : (d.map Prod.fst).Nodup) (k : String) (v : α) :
    dictGet ((dictSet d k v).filter (fun p => p.2 ≠ v)) k = none := by
  induction d with
  | nil => simp [dictSet, dictGet]
  | cons p rest ih =>
      obtain ⟨a, b⟩ := p
      simp only [List.map_cons, List.nodup_cons] at h
      by_cases hp : a = k
      · subst hp
        have hrest : dictGet (rest.filter (fun p => p.2 ≠ v)) a = none := by
          apply dictGet_eq_none_of_not_mem_keys
          intro hmem
          exact h.1 (keys_filter_subset hmem)
        simpa [dictSet] using hrest
      · by_cases hb : b = v
        · subst hb
          simpa [dictSet, hp] using ih h.2
        · simpa [dictSet, dictGet, hp, hb] using ih h.2

/-! ### Trace discipline for the StateIndex invariant

`goodStep` tracks, per client id, whether a `/auth` state assignment has
happened since the last registration of that id; a trace is good when no
client id is assigned a second state without an intervening registration.
The counterexample below shows the unrestricted invariant fails exactly on
such double assignments. -/

def goodStep : Option (List String) → Op → Option (List String)
  | none, _ => none
  | some assigned, .register cid _ => some (assigned.filter (fun x => x ≠ cid))
  | some assigned, .auth p _ =>
      let cid := pyStrip (p.getD "")
      if cid ∈ assigned then none else some (cid :: assigned)
  | some assigned, .callback _ _ _ => some assigned

/-- A trace is good when every client id gets at most one `/auth` state
assignment per registration. -/
def goodTrace (ops : List Op) : Bool :=
  (ops.foldl goodStep (some [])).isSome

/-- Auxiliary invariant: every entry of `_state_to_client` points at an
assigned client id whose live session records exactly that state. -/
def InvAux (σ : RegState) (assigned : List String) : Prop :=
  ∀ p ∈ σ.state_to_client, p.2 ∈ assigned ∧
    ∃ info, dictGet σ.active_sessions p.2 = some info ∧ info.state = some p.1

theorem resolveState_inv {σ : RegState} {st cid : String} {info : SessionInfo}
    (h : resolveState σ st = some (cid, info)) :
    dictGet σ.state_to_client st = some cid
    ∧ cid ≠ "" ∧ dictGet σ.active_sessions cid = some info := by
  rcases hg : dictGet σ.state_to_client st with _ | c
  · simp [resolveState, hg] at h
  · by_cases hc : c = ""
    · simp [resolveState, hg, hc] at h
    · rcases hg2 : dictGet σ.active_sessions c with _ | i
      · simp [resolveState, hg, hc, hg2] at h
      · simp [resolveState, hg, hc, hg2] at h
        obtain ⟨rfl, rfl⟩ := h
        exact ⟨rfl, hc, hg2⟩

theorem invAux_register {σ : RegState} {a : List String} (h : InvAux σ a)
    (cid sec : String) :
    InvAux (register_session σ cid sec) (a.filter (fun x => x ≠ cid)) := by
  intro p hp
  simp only [register_session] at hp ⊢
  have hmem := List.mem_filter.mp hp
  have hne : p.2 ≠ cid := by simpa using hmem.2
  obtain ⟨ha, info, hget, hstate⟩ := h p hmem.1
  refine ⟨List.mem_filter.mpr ⟨ha, by simpa using hne⟩, info, ?_, hstate⟩
  rw [dictGet_dictSet_ne _ _ hne]
  exact hget

theorem invAux_auth {σ : RegState} {a : List String} (h : InvAux σ a)
    (p : Option String) (st : String) (hna : pyStrip (p.getD "") ∉ a) :
    InvAux (auth_route σ p st).regState (pyStrip (p.getD "") :: a) := by
  intro q hq
  by_cases h0 : pyStrip (p.getD "") = ""
  · simp only [auth_route, h0, if_pos rfl] at hq ⊢
    obtain ⟨ha, info, hget, hstate⟩ := h q hq
    exact ⟨List.mem_cons_of_mem _ ha, info, hget, hstate⟩
  · rcases hsess : dictGet σ.active_sessions (pyStrip (p.getD "")) with _ | info
    · simp only [auth_route, if_neg h0, hsess] at hq ⊢
      obtain ⟨ha, info, hget, hstate⟩ := h q hq
      exact ⟨List.mem_cons_of_mem _ ha, info, hget, hstate⟩
    · simp only [auth_route, if_neg h0, hsess] at hq ⊢
      rcases mem_dictSet hq with rfl | hq
      · refine ⟨List.mem_cons_self _ _, { info with state := some st }, ?_, rfl⟩
        exact dictGet_dictSet_self ..
      · obtain ⟨ha, info', hget, hstate⟩ := h q hq
        have hne : q.2 ≠ pyStrip (p.getD "") := fun he => hna (he ▸ ha)
        refine ⟨List.mem_cons_of_mem _ ha, info', ?_, hstate⟩
        rw [dictGet_dictSet_ne _ _ hne]
        exact hget

theorem invAux_callback {σ : RegState} {a : List String} (h : InvAux σ a)
    (e s : Option String) (x : Option Token) :
    InvAux (callback_route σ none e s x).regState a := by
  intro q hq
  by_cases he : e.isSome
  · simp only [callback_route, he, if_pos rfl] at hq ⊢
    exact h q hq
  · by_cases hs : s.getD "" = ""
    · simp only [callback_route, he, Bool.false_eq_true, if_false, hs, if_pos rfl] at hq ⊢
      exact h q hq
    · rcases hres : resolveState σ (s.getD "") with _ | ⟨cid, info⟩
      · simp only [callback_route, he, Bool.false_eq_true, if_false, if_neg hs, hres] at hq ⊢
        obtain ⟨hqd, hqne⟩ := mem_dictRemove hq
        exact h q hqd
      · rcases x with _ | tok
        · simp only [callback_route, he, Bool.false_eq_true, if_false, if_neg hs, hres]
            at hq ⊢
          obtain ⟨hqd, hqne⟩ := mem_dictRemove hq
          exact h q hqd
        · simp only [callback_route, he, Bool.false_eq_true, if_false, if_neg hs, hres]
            at hq ⊢
          obtain ⟨hqd, hqne⟩ := mem_dictRemove hq
          obtain ⟨ha, info', hget, hstate⟩ := h q hqd
          obtain ⟨hcid, hcne, hinfo⟩ := resolveState_inv hres
          have hcidstate : info.state = some (s.getD "") := by
            obtain ⟨ha2, info2, hget2, hstate2⟩ := h (s.getD "", cid) (dictGet_mem hcid)
            rw [hinfo] at hget2
            exact (Option.some.inj hget2) ▸ hstate2
          have hqcid : q.2 ≠ cid := by
            intro heq
            rw [heq, hinfo] at hget
            obtain rfl := Option.some.inj hget
            rw [hcidstate] at hstate
            exact hqne (Option.some.inj hstate).symm
          refine ⟨ha, info', ?_, hstate⟩
          rw [dictGet_dictRemove_ne _ hqcid]
          exact hget

theorem foldl_goodStep_none (ops : List Op) : ops.foldl goodStep none = none := by
  induction ops with
  | nil => rfl
  | cons op rest ih => simpa [goodStep] using ih

theorem invAux_exec : ∀ (ops : List Op) (σ : RegState) (a a' : List String),
    InvAux σ a → ops.foldl goodStep (some a) = some a' →
    InvAux (execOps σ ops) a' := by
  intro ops
  induction ops with
  | nil =>
      intro σ a a' h hfold
      obtain rfl := Option.some.inj hfold
      exact h
  | cons op rest ih =>
      intro σ a a' h hfold
      cases op with
      | register cid sec =>
          exact ih _ _ _ (invAux_register h cid sec) hfold
      | auth p st =>
          rw [List.foldl_cons] at hfold
          by_cases hmem : pyStrip (p.getD "") ∈ a
          · rw [show goodStep (some a) (.auth p st) = none by simp [goodStep, hmem],
              foldl_goodStep_none] at hfold
            cases hfold
          · rw [show goodStep (some a) (.auth p st)
                = some (pyStrip (p.getD "") :: a) by simp [goodStep, hmem]] at hfold
            exact ih _ _ _ (invAux_auth h p st hmem) hfold
      | callback e s x =>
          exact ih _ _ _ (invAux_callback h e s x) hfold

/-! ### Credential upsert lemmas -/

theorem filter_clientid_eq_nil {rest : List Cred} {cid : String}
    (h : cid ∉ rest.map Cred.client_id) :
    rest.filter (fun c => c.client_id = cid) = [] := by
  induction rest with
  | nil => rfl
  | cons c r ih =>
      simp only [List.map_cons, List.mem_cons] at h
      push_neg at h
      have hc : ¬ c.client_id = cid := fun hh => h.1 hh.symm
      simp [List.filter_cons, hc, ih h.2]

theorem upsertCredential_keys_mem {data : List Cred} {cid sec : String} {x : String}
    (h : x ∈ (upsertCredential data cid sec).map Cred.client_id) :
    x ∈ data.map Cred.client_id ∨ x = cid := by
  induction data with
  | nil =>
      simp only [upsertCredential, List.map_cons, List.map_nil, List.mem_singleton] at h
      exact Or.inr h
  | cons c rest ih =>
      by_cases hc : c.client_id = cid
      · simp only [upsertCredential, if_pos hc, List.map_cons, List.mem_cons] at h ⊢
        rcases h with h | h
        · exact Or.inr h
        · exact Or.inl (Or.inr h)
      · simp only [upsertCredential, if_neg hc, List.map_cons, List.mem_cons] at h ⊢
        rcases h with h | h
        · exact Or.inl (Or.inl h)
        · rcases ih h with h | h
          · exact Or.inl (Or.inr h)
          · exact Or.inr h

theorem upsertCredential_nodup {data : List Cred} {cid sec : String}
    (h : (data.map Cred.client_id).Nodup) :
    ((upsertCredential data cid sec).map Cred.client_id).Nodup := by
  induction data with
  | nil => simp [upsertCredential]
  | cons c rest ih =>
      simp only [List.map_cons, List.nodup_cons] at h
      by_cases hc : c.client_id = cid
      · simp only [upsertCredential, if_pos hc, List.map_cons, List.nodup_cons]
        exact ⟨hc ▸ h.1, h.2⟩
      · simp only [upsertCredential, if_neg hc, List.map_cons, List.nodup_cons]
        refine ⟨fun hmem => ?_, ih h.2⟩
        rcases upsertCredential_keys_mem hmem with hm | hm
        · exact h.1 hm
        · exact hc hm

theorem upsertCredential_filter {data : List Cred} {cid sec : String}
    (h : (data.map Cred.client_id).Nodup) :
    (upsertCredential data cid sec).filter (fun c => c.client_id = cid) = [⟨cid, sec⟩] := by
  induction data with
  | nil => simp [upsertCredential]
  | cons c rest ih =>
      simp only [List.map_cons, List.nodup_cons] at h
      by_cases hc : c.client_id = cid
      · simp [upsertCredential, if_pos hc, List.filter_cons,
          filter_clientid_eq_nil (hc ▸ h.1)]
      · simp only [upsertCredential, if_neg hc, List.filter_cons, hc, decide_eq_true_eq,
          if_false]
        simpa [hc] using ih h.2

/-! ### Callback reduction lemmas -/

theorem callback_route_resolved {σ : RegState} {st cid : String} {info : SessionInfo}
    (tokens : JsonFile TokensDoc) (hst : st ≠ "")
    (hres : resolveState σ st = some (cid, info)) :
    (callback_route σ tokens none (some st) none
        = ⟨.exchangeFailed, some (cid, info.secret), true,
            { σ with state_to_client := dictRemove σ.state_to_client st }, tokens⟩)
    ∧ ∀ tok : Token, callback_route σ tokens none (some st) (some tok)
        = ⟨.success, some (cid, info.secret), true,
            ⟨dictRemove σ.active_sessions cid, dictRemove σ.state_to_client st⟩,
            save_token tokens cid tok⟩ := by
  constructor
  · simp [callback_route, hst, hres]
  · intro tok
    simp [callback_route, hst, hres]

theorem callback_route_not_found {σ : RegState} {st : String}
    (tokens : JsonFile TokensDoc) (exch : Option Token) (hst : st ≠ "")
    (hres : resolveState σ st = none) :
    callback_route σ tokens none (some st) exch
      = ⟨.sessionNotFound, none, false,
          { σ with state_to_client := dictRemove σ.state_to_client st }, tokens⟩ := by
  simp [callback_route, hst, hres]

theorem resolveState_removed (s : List (String × SessionInfo))
    (d : List (String × String)) (st : String) :
    resolveState ⟨s, dictRemove d st⟩ st = none := by
  simp [resolveState, dictGet_dictRemove_self]

theorem auth_route_fresh {σ₀ : RegState} {cid : String} (sec st : String)
    (hcid : pyStrip cid = cid) (hcid0 : cid ≠ "") :
    (auth_route (register_session σ₀ cid sec) (some cid) st).regState
      = ⟨dictSet (dictSet σ₀.active_sessions cid ⟨sec, none⟩) cid ⟨sec, some st⟩,
          dictSet (σ₀.state_to_client.filter (fun p => p.2 ≠ cid)) st cid⟩ := by
  simp [auth_route, register_session, hcid, hcid0, dictGet_dictSet_self]

/-! ### Claim theorems -/

/-- Claim C5: loading a credential or token document whose file is missing
(`none`) or unparseable (`some none`) raises nothing, returns the empty
default (empty list for credentials, empty mapping for tokens), persists
that default, and a subsequent load returns the same empty default. -/
theorem c5_corrupt_file_resets_to_default (cf : JsonFile (List Cred))
    (tf : JsonFile TokensDoc) (hcf : cf = none ∨ cf = some none)
    (htf : tf = none ∨ tf = some none) :
    ensure_json_file cf ([] : List Cred) = ([], some (some []))
    ∧ (ensure_json_file (ensure_json_file cf ([] : List Cred)).2 ([] : List Cred)).1 = []
    ∧ load_tokens tf = ([], some (some []))
    ∧ (load_tokens (load_tokens tf).2).1 = [] := by
  rcases hcf with rfl | rfl <;> rcases htf with rfl | rfl <;>
    simp [ensure_json_file, load_tokens]

/-- Witness for C5 at concrete inputs: a missing credential file and an
unparseable token file. -/
theorem c5_corrupt_file_resets_to_default_witness :
    ensure_json_file (none : JsonFile (List Cred)) ([] : List Cred) = ([], some (some []))
    ∧ (ensure_json_file (ensure_json_file (none : JsonFile (List Cred))
        ([] : List Cred)).2 ([] : List Cred)).1 = []
    ∧ load_tokens (some none) = ([], some (some []))
    ∧ (load_tokens (load_tokens (some none)).2).1 = [] :=
  c5_corrupt_file_resets_to_default none (some none) (Or.inl rfl) (Or.inr rfl)

/-- Claim C6: credential upsert is keyed on `client_id` with
last-writer-wins semantics — saving `(id, secretA)` then `(id, secretB)`
leaves exactly one record for `id`, whose secret is `secretB`, in any
credential document with duplicate-free keys (the only documents the store
itself ever produces). -/
theorem c6_credential_upsert_last_writer_wins (file : JsonFile (List Cred))
    (cid secA secB : String)
    (h : (((ensure_json_file file ([] : List Cred)).1).map Cred.client_id).Nodup) :
    ((ensure_json_file (save_credentials (save_credentials file cid secA) cid secB)
        ([] : List Cred)).1).filter (fun c => c.client_id = cid) = [⟨cid, secB⟩] := by
  simp only [save_credentials, ensure_json_file]
  exact upsertCredential_filter (upsertCredential_nodup h)

/-- Witness for C6: a concrete store that already holds a record for the
key and one for another key. -/
theorem c6_credential_upsert_last_writer_wins_witness :
    ((ensure_json_file (save_credentials (save_credentials
        (some (some [⟨"id", "old"⟩, ⟨"other", "x"⟩])) "id" "secretA") "id" "secretB")
        ([] : List Cred)).1).filter (fun c => c.client_id = "id") = [⟨"id", "secretB"⟩] :=
  c6_credential_upsert_last_writer_wins (some (some [⟨"id", "old"⟩, ⟨"other", "x"⟩]))
    "id" "secretA" "secretB" (by decide)

/-- Claim C8: a `/callback` request carrying an `error` parameter returns
HTTP 400 and leaves the registry (every pending session and every
state-index entry) and the token store entirely unchanged; state
resolution is skipped. -/
theorem c8_error_param_skips_registry (σ : RegState) (tokens : JsonFile TokensDoc)
    (e : String) (state_param : Option String) (exchange : Option Token) :
    callback_route σ tokens (some e) state_param exchange
      = ⟨.providerError, none, false, σ, tokens⟩
    ∧ CallbackResp.status .providerError = 400 :=
  ⟨rfl, rfl⟩

/-- Claim C9: a `/auth` request whose `client_id` parameter is absent,
empty, or whitespace-only (so that it strips to the empty string) returns
HTTP 400 with the JSON error body, opens no browser, and leaves the
registry unchanged. -/
theorem c9_blank_client_id_rejected (σ : RegState) (p : Option String) (st : String)
    (h : pyStrip (p.getD "") = "") :
    auth_route σ p st = ⟨.missingClientId, false, σ⟩
    ∧ AuthResp.status .missingClientId = 400 := by
  refine ⟨?_, rfl⟩
  simp [auth_route, h]

/-- Witness for C9: a whitespace-only `client_id` parameter against a
non-empty registry. -/
theorem c9_blank_client_id_rejected_witness :
    auth_route ⟨[("abc", ⟨"sec", none⟩)], []⟩ (some "   ") "st"
      = ⟨.missingClientId, false, ⟨[("abc", ⟨"sec", none⟩)], []⟩⟩
    ∧ AuthResp.status .missingClientId = 400 :=
  c9_blank_client_id_rejected ⟨[("abc", ⟨"sec", none⟩)], []⟩ (some "   ") "st" (by decide)

/-- Claim C10: `save_token` is a frame-preserving upsert — after saving a
token for one client id, a load yields that token at the client id and the
previous value at every other key. -/
theorem c10_save_token_frame (file : JsonFile TokensDoc) (cid k : String) (tok : Token)
    (hk : k ≠ cid) :
    dictGet (load_tokens (save_token file cid tok)).1 cid = some tok
    ∧ dictGet (load_tokens (save_token file cid tok)).1 k
        = dictGet (load_tokens file).1 k := by
  constructor
  · simp [load_tokens, save_token, ensure_json_file, dictGet_dictSet_self]
  · simp [load_tokens, save_token, ensure_json_file, dictGet_dictSet_ne _ _ hk]

/-- Witness for C10 on a concrete token store holding another client. -/
theorem c10_save_token_frame_witness :
    dictGet (load_tokens (save_token (some (some [("b", "TB")])) "a" "TA")).1 "a"
        = some "TA"
    ∧ dictGet (load_tokens (save_token (some (some [("b", "TB")])) "a" "TA")).1 "b"
        = dictGet (load_tokens (some (some [("b", "TB")]))).1 "b" :=
  c10_save_token_frame (some (some [("b", "TB")])) "a" "b" "TA" (by decide)

/-- Claim C1 counterexample: the invariant as stated fails on the code.
After `register_session("a","s")`, a first `/auth` assigning state `st1`
and a second `/auth` assigning `st2`, the index still maps `st1` to `"a"`
while the live session for `"a"` records state `st2`, so the key `st1`
does not satisfy the consistency condition. -/
theorem c1_stateIndex_invariant_counterexample :
    ¬ StateIndexConsistent (execOps initRegState
        [.register "a" "s", .auth (some "a") "st1", .auth (some "a") "st2"]) := by
  intro h
  obtain ⟨info, hget, hstate⟩ := h "st1" "a" (by decide)
  have hs : dictGet (execOps initRegState
      [.register "a" "s", .auth (some "a") "st1", .auth (some "a") "st2"]).active_sessions
      "a" = some ⟨"s", some "st2"⟩ := by decide
  rw [hs] at hget
  obtain rfl := Option.some.inj hget
  exact absurd hstate (by decide)

/-- Claim C1 (amended): (1) the StateIndex consistency invariant holds
after every sequence of public operations in which each client id receives
at most one `/auth` state assignment per registration (a second assignment
without an intervening registration leaves a stale index key, as the
counterexample shows); and (2) unconditionally, creating a new pending
session for a client id removes every index entry pointing at that
client id. -/
theorem c1_stateIndex_invariant_amended :
    (∀ ops : List Op, goodTrace ops = true →
        StateIndexConsistent (execOps initRegState ops))
    ∧ ∀ (σ : RegState) (cid sec st : String),
        dictGet (register_session σ cid sec).state_to_client st ≠ some cid := by
  constructor
  · intro ops hops
    have h0 : InvAux initRegState [] := by
      intro p hp
      simp [initRegState] at hp
    unfold goodTrace at hops
    rcases hfold : ops.foldl goodStep (some []) with _ | a'
    · rw [hfold] at hops
      cases hops
    · have hinv := invAux_exec ops initRegState [] a' h0 hfold
      intro st cid hget
      obtain ⟨ha, info, hget2, hstate⟩ := hinv (st, cid) (dictGet_mem hget)
      exact ⟨info, hget2, hstate⟩
  · intro σ cid sec st hget
    have hmem := dictGet_mem hget
    simp only [register_session] at hmem
    have hf := List.mem_filter.mp hmem
    simp at hf

/-- Witness for C1 (amended): a concrete good trace (one assignment per
registration, including a consumed callback and a re-registration), and a
concrete stale-entry removal. -/
theorem c1_stateIndex_invariant_amended_witness :
    StateIndexConsistent (execOps initRegState
      [.register "a" "s", .auth (some "a") "st1",
       .callback none (some "st1") (some "T"), .register "a" "s2",
       .auth (some "a") "st2"])
    ∧ dictGet (register_session ⟨[], [("x", "a")]⟩ "a" "s").state_to_client "x"
        ≠ some "a" :=
  ⟨c1_stateIndex_invariant_amended.1 _ (by decide),
   c1_stateIndex_invariant_amended.2 ⟨[], [("x", "a")]⟩ "a" "s" "x"⟩

/-- Claim C2: registering a session, assigning a state to that client id
via `/auth`, then resolving that state via `/callback` yields exactly that
client id and secret; a second resolution of the same state value hits the
not-found path (state resolution is destructive), whatever the exchange
outcomes were. -/
theorem c2_register_assign_resolve_roundtrip (σ₀ : RegState)
    (tokens : JsonFile TokensDoc) (cid sec st : String) (exch exch2 : Option Token)
    (hcid : pyStrip cid = cid) (hcid0 : cid ≠ "") (hst : st ≠ "") :
    (callback_route (auth_route (register_session σ₀ cid sec) (some cid) st).regState
        tokens none (some st) exch).resolved = some (cid, sec)
    ∧ (callback_route
        (callback_route (auth_route (register_session σ₀ cid sec) (some cid) st).regState
          tokens none (some st) exch).regState
        (callback_route (auth_route (register_session σ₀ cid sec) (some cid) st).regState
          tokens none (some st) exch).tokensFile
        none (some st) exch2).resp = .sessionNotFound := by
  rw [auth_route_fresh sec st hcid hcid0]
  have hres : resolveState
      ⟨dictSet (dictSet σ₀.active_sessions cid ⟨sec, none⟩) cid ⟨sec, some st⟩,
        dictSet (σ₀.state_to_client.filter (fun p => p.2 ≠ cid)) st cid⟩ st
      = some (cid, ⟨sec, some st⟩) := by
    simp [resolveState, dictGet_dictSet_self, hcid0]
  obtain ⟨hfail, hsucc⟩ := callback_route_resolved tokens hst hres
  cases exch with
  | none =>
      rw [hfail]
      exact ⟨rfl, by rw [callback_route_not_found _ exch2 hst (resolveState_removed _ _ _)]⟩
  | some tok =>
      rw [hsucc tok]
      exact ⟨rfl, by rw [callback_route_not_found _ exch2 hst (resolveState_removed _ _ _)]⟩

/-- Witness for C2 at concrete inputs (successful first exchange). -/
theorem c2_register_assign_resolve_roundtrip_witness :
    (callback_route (auth_route (register_session initRegState "abc" "sec")
        (some "abc") "xyz").regState none none (some "xyz") (some "T")).resolved
      = some ("abc", "sec")
    ∧ (callback_route
        (callback_route (auth_route (register_session initRegState "abc" "sec")
          (some "abc") "xyz").regState none none (some "xyz") (some "T")).regState
        (callback_route (auth_route (register_session initRegState "abc" "sec")
          (some "abc") "xyz").regState none none (some "xyz") (some "T")).tokensFile
        none (some "xyz") none).resp = .sessionNotFound :=
  c2_register_assign_resolve_roundtrip initRegState none "abc" "sec" "xyz"
    (some "T") none (by decide) (by decide) (by decide)

/-- Claim C3: registering a second session for the same client id
invalidates the state assigned under the first registration — resolving
the old state after the second `register_session` takes the not-found
path even though the state was never consumed. -/
theorem c3_reregister_invalidates_old_state (σ₀ : RegState)
    (tokens : JsonFile TokensDoc) (cid sec1 sec2 st : String) (exch : Option Token)
    (hnodup : (σ₀.state_to_client.map Prod.fst).Nodup)
    (hcid : pyStrip cid = cid) (hcid0 : cid ≠ "") (hst : st ≠ "") :
    (callback_route (register_session
        (auth_route (register_session σ₀ cid sec1) (some cid) st).regState cid sec2)
        tokens none (some st) exch).resp = .sessionNotFound := by
  rw [auth_route_fresh sec1 st hcid hcid0]
  have hget : dictGet ((dictSet (σ₀.state_to_client.filter (fun p => p.2 ≠ cid)) st
      cid).filter (fun p => p.2 ≠ cid)) st = none :=
    dictGet_dictSet_filter_value (nodupKeys_filter _ hnodup) st cid
  have hres : resolveState (register_session
      ⟨dictSet (dictSet σ₀.active_sessions cid ⟨sec1, none⟩) cid ⟨sec1, some st⟩,
        dictSet (σ₀.state_to_client.filter (fun p => p.2 ≠ cid)) st cid⟩ cid sec2) st
      = none := by
    simp only [register_session, resolveState]
    rw [hget]
  rw [callback_route_not_found tokens exch hst hres]

/-- Witness for C3 at concrete inputs. -/
theorem c3_reregister_invalidates_old_state_witness :
    (callback_route (register_session
        (auth_route (register_session initRegState "abc" "s1") (some "abc")
          "xyz").regState "abc" "s2")
        none none (some "xyz") (some "T")).resp = .sessionNotFound :=
  c3_reregister_invalidates_old_state initRegState none "abc" "s1" "s2" "xyz"
    (some "T") (by decide) (by decide) (by decide) (by decide)

/-- Claim C4: a `/callback` whose state resolves to a live session but
whose token exchange fails returns HTTP 500, persists nothing to the token
store, and still consumes the state: a second callback with the same state
takes the not-found path. -/
theorem c4_exchange_failure_consumes_state (σ : RegState)
    (tokens : JsonFile TokensDoc) (st cid : String) (info : SessionInfo)
    (exch2 : Option Token) (hst : st ≠ "")
    (hres : resolveState σ st = some (cid, info)) :
    (callback_route σ tokens none (some st) none).resp = .exchangeFailed
    ∧ CallbackResp.status (callback_route σ tokens none (some st) none).resp = 500
    ∧ (callback_route σ tokens none (some st) none).tokensFile = tokens
    ∧ (callback_route (callback_route σ tokens none (some st) none).regState
        (callback_route σ tokens none (some st) none).tokensFile
        none (some st) exch2).resp = .sessionNotFound := by
  obtain ⟨hfail, _⟩ := callback_route_resolved tokens hst hres
  rw [hfail]
  exact ⟨rfl, rfl, rfl,
    by rw [callback_route_not_found _ exch2 hst (resolveState_removed _ _ _)]⟩

/-- Witness for C4 on a concrete registry with a live resolvable state. -/
theorem c4_exchange_failure_consumes_state_witness :
    (callback_route ⟨[("abc", ⟨"sec", some "xyz"⟩)], [("xyz", "abc")]⟩
        (some (some [])) none (some "xyz") none).resp = .exchangeFailed
    ∧ CallbackResp.status (callback_route ⟨[("abc", ⟨"sec", some "xyz"⟩)],
        [("xyz", "abc")]⟩ (some (some [])) none (some "xyz") none).resp = 500
    ∧ (callback_route ⟨[("abc", ⟨"sec", some "xyz"⟩)], [("xyz", "abc")]⟩
        (some (some [])) none (some "xyz") none).tokensFile = some (some [])
    ∧ (callback_route (callback_route ⟨[("abc", ⟨"sec", some "xyz"⟩)],
          [("xyz", "abc")]⟩ (some (some [])) none (some "xyz") none).regState
        (callback_route ⟨[("abc", ⟨"sec", some "xyz"⟩)], [("xyz", "abc")]⟩
          (some (some [])) none (some "xyz") none).tokensFile
        none (some "xyz") (some "T")).resp = .sessionNotFound :=
  c4_exchange_failure_consumes_state ⟨[("abc", ⟨"sec", some "xyz"⟩)], [("xyz", "abc")]⟩
    (some (some [])) "xyz" "abc" ⟨"sec", some "xyz"⟩ (some "T") (by decide) (by decide)

/-- Claim C7: a `/callback` carrying a state value that does not resolve
to a registered session (and no error parameter) returns HTTP 400 with the
session-not-found page, never calls the token endpoint, and persists no
token record. -/
theorem c7_unresolved_state_rejected (σ : RegState) (tokens : JsonFile TokensDoc)
    (st : String) (exch : Option Token) (hst : st ≠ "")
    (hres : resolveState σ st = none) :
    (callback_route σ tokens none (some st) exch).resp = .sessionNotFound
    ∧ CallbackResp.status (callback_route σ tokens none (some st) exch).resp = 400
    ∧ (callback_route σ tokens none (some st) exch).exchangeCalled = false
    ∧ (callback_route σ tokens none (some st) exch).tokensFile = tokens := by
  rw [callback_route_not_found tokens exch hst hres]
  exact ⟨rfl, rfl, rfl, rfl⟩

/-- Witness for C7: an unknown state against the initial registry. -/
theorem c7_unresolved_state_rejected_witness :
    (callback_route initRegState (some (some [])) none (some "xyz")
        (some "T")).resp = .sessionNotFound
    ∧ CallbackResp.status (callback_route initRegState (some (some [])) none
        (some "xyz") (some "T")).resp = 400
    ∧ (callback_route initRegState (some (some [])) none (some "xyz")
        (some "T")).exchangeCalled = false
    ∧ (callback_route initRegState (some (some [])) none (some "xyz")
        (some "T")).tokensFile = some (some []) :=
  c7_unresolved_state_rejected initRegState (some (some [])) "xyz" (some "T")
    (by decide) (by decide)

end FitbitAuth
